import Mathlib

/-!
Verification development for the GoScanRentalTide scanner service.

This file gives a shallow embedding, over `List Char`, of the license-parsing
and scan-classification core of the repository (`main.go`, with the variant
parsers of `unnamed/part_004` and `unnamed/part_006` embedded separately where
a claim refers to them), and proves the behavioural claims about it.

Go strings are modelled as `List Char`; every Go standard-library call used by
the source (`strings.Split`, `strings.TrimSpace`, `strings.TrimPrefix`,
`strings.Contains`, `strings.HasPrefix`, `strings.ReplaceAll`,
`strings.SplitN`) is re-implemented below with matching semantics, and each
regular expression the source compiles is embedded as a left-to-right scanner
implementing Go's leftmost-first match semantics for that concrete pattern.
-/

/-- Go strings are byte/character sequences; we model them as lists of chars. -/
abbrev Str := List Char

/-- Convert a Lean string literal to the `Str` model. -/
def toStr (s : String) : Str := s.toList

/-- The NAK control byte 0x15, the scanner's "no data" signal. -/
def nakChar : Char := Char.ofNat 0x15

/-- Characters trimmed by Go's `strings.TrimSpace` (`unicode.IsSpace` in the
Latin-1 range: space, tab, newline, vertical tab, form feed, carriage return,
NEL and NBSP). -/
def goIsSpace (c : Char) : Bool :=
  c = ' ' || c = '\t' || c = '\n' || c = Char.ofNat 0x0b || c = Char.ofNat 0x0c ||
  c = '\r' || c = Char.ofNat 0x85 || c = Char.ofNat 0xa0

/-- Model of `strings.HasPrefix s p` (argument order: pattern first). -/
def hasPrefixS : Str → Str → Bool
  | [], _ => true
  | _ :: _, [] => false
  | p :: ps, c :: cs => p = c && hasPrefixS ps cs

/-- Model of `strings.TrimPrefix s p`: drop `p` from the front when present. -/
def trimPrefixS (p s : Str) : Str :=
  if hasPrefixS p s then s.drop p.length else s

/-- Model of `strings.TrimSpace`. -/
def trimSpaceS (s : Str) : Str :=
  ((s.dropWhile goIsSpace).reverse.dropWhile goIsSpace).reverse

/-- Model of `strings.Contains s needle` (argument order: needle first). -/
def containsSub (needle : Str) : Str → Bool
  | [] => needle.isEmpty
  | c :: rest => hasPrefixS needle (c :: rest) || containsSub needle rest

/-- Model of `strings.ReplaceAll s (string c) ""` for a one-character pattern. -/
def removeAll (c : Char) (s : Str) : Str := s.filter (fun x => x ≠ c)

/-- Model of `strings.Split s (string sep)` for a one-character separator. -/
def splitChar (sep : Char) : Str → List Str
  | [] => [[]]
  | c :: rest =>
    if c = sep then [] :: splitChar sep rest
    else
      match splitChar sep rest with
      | h :: t => (c :: h) :: t
      | [] => [[c]]

/-- Split at the first occurrence of `c`: the part before it and, when `c`
occurs, the remainder after it. -/
def breakOn (c : Char) : Str → Str × Option Str
  | [] => ([], none)
  | x :: xs =>
    if x = c then ([], some xs)
    else
      let r := breakOn c xs
      (x :: r.1, r.2)

/-- Model of `strings.SplitN s (string c) 2`. -/
def goSplitN2 (c : Char) (s : Str) : List Str :=
  match breakOn c s with
  | (a, none) => [a]
  | (a, some b) => [a, b]

/-- Go slice `s[a:b]` on the happy path (bounds handled separately by the
checked parsers). -/
def subStr (s : Str) (a b : Nat) : Str := (s.drop a).take (b - a)

/-- The last `n` characters of `s`, Go's `s[len(s)-n:]` when `n ≤ len(s)`. -/
def lastN (n : Nat) (s : Str) : Str := s.drop (s.length - n)

/-- Model of `strconv.Atoi` with the error ignored (the source discards it):
the numeric value of an all-digit string, `0` otherwise. -/
def atoiDef (s : Str) : Nat :=
  if s ≠ [] ∧ s.all Char.isDigit then
    s.foldl (fun n c => n * 10 + (c.toNat - 48)) 0
  else 0

/-- Leftmost match of the group of Go regex `;(\d{13,16})=`: the run of 13 to
16 digits between the first qualifying `;` and `=`.  (With Go's leftmost-first
semantics a position matches exactly when the maximal digit run after the `;`
has length 13 to 16 and is followed by `=`.) -/
def findSemiNum : Str → Option Str
  | [] => none
  | c :: rest =>
    if c = ';' then
      let ds := rest.takeWhile Char.isDigit
      if 13 ≤ ds.length ∧ ds.length ≤ 16 ∧ (rest.drop ds.length).head? = some '=' then
        some ds
      else findSemiNum rest
    else findSemiNum rest

/-- Leftmost match of the group of Go regex `=(\d{12})=`: twelve digits
bracketed by `=` signs. -/
def findEqDate : Str → Option Str
  | [] => none
  | c :: rest =>
    if c = '=' then
      let ds := rest.take 12
      if ds.length = 12 ∧ ds.all Char.isDigit ∧ (rest.drop 12).head? = some '=' then
        some ds
      else findEqDate rest
    else findEqDate rest

/-- Leftmost match of Go regex `([MF])(\d{3})`: the sex letter and the three
height digits. -/
def findSexHeight : Str → Option (Char × Str)
  | [] => none
  | c :: rest =>
    if c = 'M' ∨ c = 'F' then
      let ds := rest.take 3
      if ds.length = 3 ∧ ds.all Char.isDigit then some (c, ds)
      else findSexHeight rest
    else findSexHeight rest

/-- ASCII upper-case letter, Go regex class `[A-Z]`. -/
def isUpperAZ (c : Char) : Bool := 'A' ≤ c && c ≤ 'Z'

/-- Go regex class `\s` (RE2 Perl class): tab, newline, form feed, carriage
return, space. -/
def isRegexSpace (c : Char) : Bool :=
  c = '\t' || c = '\n' || c = Char.ofNat 0x0c || c = '\r' || c = ' '

/-- Attempt of Go regex `[A-Z]\d[A-Z]\s?\d[A-Z]\d` anchored at the start of
`l`, the optional `\s` tried greedily first. -/
def postalAt (l : Str) : Option Str :=
  match l with
  | a :: b :: d :: rest2 =>
    if isUpperAZ a ∧ b.isDigit ∧ isUpperAZ d then
      match rest2 with
      | e :: f :: g :: h :: _ =>
        if isRegexSpace e ∧ f.isDigit ∧ isUpperAZ g ∧ h.isDigit then
          some [a, b, d, e, f, g, h]
        else if e.isDigit ∧ isUpperAZ f ∧ g.isDigit then some [a, b, d, e, f, g]
        else none
      | [e, f, g] =>
        if e.isDigit ∧ isUpperAZ f ∧ g.isDigit then some [a, b, d, e, f, g]
        else none
      | _ => none
    else none
  | _ => none

/-- Leftmost match of Go regex `[A-Z]\d[A-Z]\s?\d[A-Z]\d` (`FindString`). -/
def findPostal : Str → Option Str
  | [] => none
  | c :: rest =>
    match postalAt (c :: rest) with
    | some m => some m
    | none => findPostal rest

/-- Go regex class `\w`: ASCII letters, digits, underscore. -/
def isWordChar (c : Char) : Bool := c.isAlphanum || c = '_'

/-- Leftmost match of the group of Go regex `DCAG(\w+)`: the maximal word-char
run after the first occurrence of `DCAG` that is followed by at least one
word char. -/
def findDCAG : Str → Option Str
  | [] => none
  | c :: rest =>
    if hasPrefixS (toStr "DCAG") (c :: rest) then
      let ws := ((c :: rest).drop 4).takeWhile isWordChar
      if ws ≠ [] then some ws else findDCAG rest
    else findDCAG rest

/-- The structured identity record produced by the parsers (`LicenseData` in
`main.go`); every field defaults to the empty string. -/
structure LicenseData where
  firstName : Str := []
  middleName : Str := []
  lastName : Str := []
  address : Str := []
  city : Str := []
  state : Str := []
  postal : Str := []
  licenseNumber : Str := []
  issueDate : Str := []
  expiryDate : Str := []
  height : Str := []
  sex : Str := []
  licenseClass : Str := []
  dob : Str := []
  rawData : Str := []
  deriving DecidableEq, Repr

/-- Initial record of `parseBCLicenseData`: raw payload kept for diagnostics,
license class defaulted to the sentinel. -/
def bcInit (rawInput : Str) : LicenseData :=
  { rawData := rawInput, licenseClass := toStr "NA" }

/-- Control-character cleanup at the top of `parseBCLicenseData`: strip a
leading NAK, remove all carriage returns and line feeds. -/
def cleanBCRaw (rawInput : Str) : Str :=
  removeAll '\n' (removeAll '\r' (trimPrefixS [nakChar] rawInput))

/-- City section of `parseBCLicenseData`: segment 0 must begin with `%BC`. -/
def bcCityStep (parts : List Str) (lic : LicenseData) : LicenseData :=
  match parts with
  | p0 :: _ =>
    if hasPrefixS (toStr "%BC") p0 then
      { lic with city := trimSpaceS (trimPrefixS (toStr "%BC") p0) }
    else lic
  | [] => lic

/-- Name section of `parseBCLicenseData`: segment 1 split on the comma, the
given names split at the first space. -/
def bcNameStep (parts : List Str) (lic : LicenseData) : LicenseData :=
  match parts with
  | _ :: p1 :: _ =>
    (match splitChar ',' p1 with
     | n0 :: n1 :: _ =>
       let lastName := trimSpaceS (trimPrefixS (toStr "$") n0)
       let fullName := trimSpaceS (trimPrefixS (toStr "$") n1)
       (match goSplitN2 ' ' fullName with
        | fn :: mids =>
          (match mids with
           | [] => { lic with lastName := lastName, firstName := fn }
           | m :: _ => { lic with lastName := lastName, firstName := fn, middleName := m })
        | [] => { lic with lastName := lastName })
     | _ => lic)
  | _ => lic

/-- Address / province / postal section of `parseBCLicenseData`: segment 2,
split on `$` when present. -/
def bcAddressStep (parts : List Str) (lic : LicenseData) : LicenseData :=
  match parts with
  | _ :: _ :: p2 :: _ =>
    if containsSub (toStr "$") p2 then
      match splitChar '$' p2 with
      | a0 :: restParts =>
        let lic := { lic with address := trimSpaceS a0 }
        (match restParts with
         | a1 :: _ =>
           let statePostal := trimSpaceS a1
           let lic :=
             if containsSub (toStr "BC") statePostal then { lic with state := toStr "BC" }
             else lic
           (match findPostal statePostal with
            | some m => if m ≠ [] then { lic with postal := m } else lic
            | none => lic)
         | [] => lic)
      | [] => lic
    else { lic with address := trimSpaceS p2 }
  | _ => lic

/-- License-number section of `parseBCLicenseData`: regex `;(\d{13,16})=`,
keeping the last 7 digits of the matched run. -/
def bcLicNumStep (raw : Str) (lic : LicenseData) : LicenseData :=
  match findSemiNum raw with
  | some full =>
    if 7 ≤ full.length then { lic with licenseNumber := full.drop (full.length - 7) }
    else lic
  | none => lic

/-- Dates section of `parseBCLicenseData`: regex `=(\d{12})=`, first six
digits `DDMMYY` expiry (century fixed to 20), last six `YYMMDD` birth date
with the two-digit year disambiguated against the current year. -/
def bcDatesStep (currentYear2 : Nat) (raw : Str) (lic : LicenseData) : LicenseData :=
  match findEqDate raw with
  | some dateStr =>
    let expiryDay := subStr dateStr 0 2
    let expiryMonth := subStr dateStr 2 4
    let expiryYear := toStr "20" ++ subStr dateStr 4 6
    let dobYearShort := subStr dateStr 6 8
    let dobYearNum := atoiDef dobYearShort
    let dobYear :=
      if currentYear2 < dobYearNum then toStr "19" ++ dobYearShort
      else toStr "20" ++ dobYearShort
    let dobMonth := subStr dateStr 8 10
    let dobDay := subStr dateStr 10 12
    { lic with
      expiryDate := expiryYear ++ toStr "-" ++ expiryMonth ++ toStr "-" ++ expiryDay,
      dob := dobYear ++ toStr "-" ++ dobMonth ++ toStr "-" ++ dobDay }
  | none => lic

/-- Sex and height section of `parseBCLicenseData`: regex `([MF])(\d{3})`. -/
def bcSexHeightStep (raw : Str) (lic : LicenseData) : LicenseData :=
  match findSexHeight raw with
  | some (sx, h) => { lic with sex := [sx], height := h ++ toStr "cm" }
  | none => lic

/-- Embedding of `parseBCLicenseData` from `main.go` (the provincial/magstripe
parser); `currentYear2` stands for `time.Now().Year() % 100`. -/
def parseBCLicenseData (currentYear2 : Nat) (rawInput : Str) : LicenseData :=
  let raw := cleanBCRaw rawInput
  let parts := splitChar '^' raw
  bcSexHeightStep raw
    (bcDatesStep currentYear2 raw
      (bcLicNumStep raw
        (bcAddressStep parts
          (bcNameStep parts
            (bcCityStep parts (bcInit rawInput))))))

example : splitChar '^' (toStr "a^^b") = [toStr "a", [], toStr "b"] := by decide

example : trimSpaceS (toStr "  ab c\t\n") = toStr "ab c" := by decide

example : findSemiNum (toStr "x;1234567890123=z") = some (toStr "1234567890123") := by decide

example : findSemiNum (toStr "x;123456789012=z") = none := by decide

example : findEqDate (toStr ";1234=271220051212=") = some (toStr "271220051212") := by decide

example : findPostal (toStr "BC V8W 1A1") = some (toStr "V8W 1A1") := by decide

example :
    (parseBCLicenseData 25 (toStr "%BCVICTORIA^SMITH,$JOHN A^123 MAIN ST$BC V8W 1A1^;1234567890123==271220051212=")).city
      = toStr "VICTORIA" := by decide

example :
    (parseBCLicenseData 25 (toStr "%BCVICTORIA^SMITH,$JOHN A^123 MAIN ST$BC V8W 1A1^;1234567890123==271220051212=")).licenseNumber
      = toStr "7890123" := by decide

example :
    (parseBCLicenseData 25 (toStr "%BCVICTORIA^SMITH,$JOHN A^123 MAIN ST$BC V8W 1A1^;1234567890123==271220051212=")).dob
      = toStr "2005-12-12" := by decide

/-- Accumulator of the AAMVA line loop: `data` map entries (presence matters
for the DAQ fallback) plus the license-class variable. -/
structure AamvaFields where
  lastName : Option Str := none
  firstName : Option Str := none
  middleName : Option Str := none
  expiryDate : Option Str := none
  issueDate : Option Str := none
  dob : Option Str := none
  sex : Option Str := none
  height : Option Str := none
  address : Option Str := none
  city : Option Str := none
  state : Option Str := none
  postal : Option Str := none
  licenseNumber : Option Str := none
  licenseClass : Str := []
  deriving DecidableEq, Repr

/-- The `DCAG` class scan that both AAMVA line loops run on every line after
the prefix switch: when regex `DCAG(\w+)` matches anywhere in the line, its
group becomes the license class. -/
def applyDCAG (line : Str) (st : AamvaFields) : AamvaFields :=
  match findDCAG line with
  | some cls => { st with licenseClass := cls }
  | none => st

/-- One iteration of the line loop of `parseAAMVALicenseData` in `main.go`:
the prefix switch (codes tried in source order, DCF before DAQ, DAQ only
filling an absent license number), then the `DCAG` class scan that runs on
every line. -/
def aamvaLineStep (st : AamvaFields) (line : Str) : AamvaFields :=
  let st :=
    if hasPrefixS (toStr "DCS") line then { st with lastName := some (trimSpaceS (line.drop 3)) }
    else if hasPrefixS (toStr "DAC") line then { st with firstName := some (trimSpaceS (line.drop 3)) }
    else if hasPrefixS (toStr "DAD") line then { st with middleName := some (trimSpaceS (line.drop 3)) }
    else if hasPrefixS (toStr "DBA") line then
      let d := trimSpaceS (line.drop 3)
      if 8 ≤ d.length then
        { st with expiryDate := some (subStr d 0 4 ++ toStr "/" ++ subStr d 4 6 ++ toStr "/" ++ subStr d 6 8) }
      else st
    else if hasPrefixS (toStr "DBD") line then
      let d := trimSpaceS (line.drop 3)
      if 8 ≤ d.length then
        { st with issueDate := some (subStr d 0 4 ++ toStr "/" ++ subStr d 4 6 ++ toStr "/" ++ subStr d 6 8) }
      else st
    else if hasPrefixS (toStr "DBB") line then
      let d := trimSpaceS (line.drop 3)
      if 8 ≤ d.length then
        { st with dob := some (subStr d 0 4 ++ toStr "/" ++ subStr d 4 6 ++ toStr "/" ++ subStr d 6 8) }
      else st
    else if hasPrefixS (toStr "DBC") line then
      let s := trimSpaceS (line.drop 3)
      { st with sex := some (if s = toStr "1" then toStr "M" else if s = toStr "2" then toStr "F" else s) }
    else if hasPrefixS (toStr "DAU") line then
      { st with height := some (removeAll ' ' (trimSpaceS (line.drop 3))) }
    else if hasPrefixS (toStr "DAG") line then { st with address := some (trimSpaceS (line.drop 3)) }
    else if hasPrefixS (toStr "DAI") line then { st with city := some (trimSpaceS (line.drop 3)) }
    else if hasPrefixS (toStr "DAJ") line then { st with state := some (trimSpaceS (line.drop 3)) }
    else if hasPrefixS (toStr "DAK") line then { st with postal := some (trimSpaceS (line.drop 3)) }
    else if hasPrefixS (toStr "DCF") line then
      { st with licenseNumber := some (trimSpaceS (line.drop 3)) }
    else if hasPrefixS (toStr "DAQ") line then
      match st.licenseNumber with
      | some _ => st
      | none => { st with licenseNumber := some (trimSpaceS (line.drop 3)) }
    else st
  applyDCAG line st

/-- Line preparation shared by the AAMVA parsers: split on newlines, trim each
line, keep the non-empty ones. -/
def aamvaPrepLines (lines : List Str) : List Str :=
  (lines.map trimSpaceS).filter (fun l => l ≠ [])

/-- Assemble the `LicenseData` record from the accumulated AAMVA fields (map
lookups default to the empty string; the class defaults to `NA`). -/
def aamvaAssemble (st : AamvaFields) : LicenseData :=
  { firstName := st.firstName.getD []
    middleName := st.middleName.getD []
    lastName := st.lastName.getD []
    address := st.address.getD []
    city := st.city.getD []
    state := st.state.getD []
    postal := st.postal.getD []
    licenseNumber := st.licenseNumber.getD []
    issueDate := st.issueDate.getD []
    expiryDate := st.expiryDate.getD []
    height := st.height.getD []
    sex := st.sex.getD []
    licenseClass := if st.licenseClass = [] then toStr "NA" else st.licenseClass
    dob := st.dob.getD [] }

/-- The AAMVA field extraction of `main.go` on an already-split line list
(raw-data field left empty; the string-level wrapper fills it). -/
def parseAAMVAFromLines (lines : List Str) : LicenseData :=
  aamvaAssemble ((aamvaPrepLines lines).foldl aamvaLineStep {})

/-- Embedding of `parseAAMVALicenseData` from `main.go`: strip a leading NAK,
split into lines, run the tag dispatch; the returned raw data is the
NAK-stripped payload. -/
def parseAAMVALicenseData (rawInput : Str) : LicenseData :=
  let raw := trimPrefixS [nakChar] rawInput
  { parseAAMVAFromLines (splitChar '\n' raw) with rawData := raw }

/-- One iteration of the line loop of `parseAAMVALicenseData` in
`unnamed/part_006`: same switch except that there is no DCF case and the DAQ
case re-hyphenates a 15-character value as 5-5-5 and always overwrites. -/
def aamvaLineStep6 (st : AamvaFields) (line : Str) : AamvaFields :=
  let st :=
    if hasPrefixS (toStr "DCS") line then { st with lastName := some (trimSpaceS (line.drop 3)) }
    else if hasPrefixS (toStr "DAC") line then { st with firstName := some (trimSpaceS (line.drop 3)) }
    else if hasPrefixS (toStr "DAD") line then { st with middleName := some (trimSpaceS (line.drop 3)) }
    else if hasPrefixS (toStr "DBA") line then
      let d := trimSpaceS (line.drop 3)
      if 8 ≤ d.length then
        { st with expiryDate := some (subStr d 0 4 ++ toStr "/" ++ subStr d 4 6 ++ toStr "/" ++ subStr d 6 8) }
      else st
    else if hasPrefixS (toStr "DBD") line then
      let d := trimSpaceS (line.drop 3)
      if 8 ≤ d.length then
        { st with issueDate := some (subStr d 0 4 ++ toStr "/" ++ subStr d 4 6 ++ toStr "/" ++ subStr d 6 8) }
      else st
    else if hasPrefixS (toStr "DBB") line then
      let d := trimSpaceS (line.drop 3)
      if 8 ≤ d.length then
        { st with dob := some (subStr d 0 4 ++ toStr "/" ++ subStr d 4 6 ++ toStr "/" ++ subStr d 6 8) }
      else st
    else if hasPrefixS (toStr "DBC") line then
      let s := trimSpaceS (line.drop 3)
      { st with sex := some (if s = toStr "1" then toStr "M" else if s = toStr "2" then toStr "F" else s) }
    else if hasPrefixS (toStr "DAU") line then
      { st with height := some (removeAll ' ' (trimSpaceS (line.drop 3))) }
    else if hasPrefixS (toStr "DAG") line then { st with address := some (trimSpaceS (line.drop 3)) }
    else if hasPrefixS (toStr "DAI") line then { st with city := some (trimSpaceS (line.drop 3)) }
    else if hasPrefixS (toStr "DAJ") line then { st with state := some (trimSpaceS (line.drop 3)) }
    else if hasPrefixS (toStr "DAK") line then { st with postal := some (trimSpaceS (line.drop 3)) }
    else if hasPrefixS (toStr "DAQ") line then
      let ln := trimSpaceS (line.drop 3)
      let ln :=
        if ln.length = 15 then
          subStr ln 0 5 ++ toStr "-" ++ subStr ln 5 10 ++ toStr "-" ++ subStr ln 10 15
        else ln
      { st with licenseNumber := some ln }
    else st
  applyDCAG line st

/-- Embedding of `parseAAMVALicenseData` from `unnamed/part_006` (the variant
with DAQ re-hyphenation). -/
def parseAAMVALicenseData6 (rawInput : Str) : LicenseData :=
  let raw := trimPrefixS [nakChar] rawInput
  { aamvaAssemble ((aamvaPrepLines (splitChar '\n' raw)).foldl aamvaLineStep6 {}) with
    rawData := raw }

/-- Embedding of `parseLicenseData` from `main.go`: marker-based dispatch with
the try-provincial-then-AAMVA fallback for unknown payloads. -/
def parseLicenseData (currentYear2 : Nat) (rawInput : Str) : LicenseData :=
  let cleanRaw := trimPrefixS [nakChar] rawInput
  if containsSub (toStr "%BC") cleanRaw then parseBCLicenseData currentYear2 rawInput
  else if containsSub (toStr "%AB") cleanRaw then parseBCLicenseData currentYear2 rawInput
  else if containsSub (toStr "ANSI ") cleanRaw then parseAAMVALicenseData rawInput
  else if containsSub (toStr "DCS") cleanRaw || containsSub (toStr "DAQ") cleanRaw then
    parseAAMVALicenseData rawInput
  else
    let license := parseBCLicenseData currentYear2 rawInput
    if license.firstName = [] ∧ license.lastName = [] ∧ license.licenseNumber = [] then
      parseAAMVALicenseData rawInput
    else license

/-- Outcome classes of one scan request as decided by `scannerHandler` after a
successful transport exchange. -/
inductive ScanClass where
  | noScan
  | warning
  | success
  deriving DecidableEq, Repr

/-- Embedding of the response classification in `scannerHandler` (`main.go`):
empty-after-trim and NAK-style responses are "not found" (`noScan`); a parse
with no identity fields is a `warning`; anything else is `success`. -/
def classifyScanResult (currentYear2 : Nat) (result : Str) : ScanClass :=
  if trimSpaceS result = [] then ScanClass.noScan
  else
    let trimmedResult := trimSpaceS result
    if trimmedResult = [nakChar] ∨
        (trimmedResult.length ≤ 2 ∧ hasPrefixS [nakChar] trimmedResult) then
      ScanClass.noScan
    else
      let licenseData := parseLicenseData currentYear2 result
      if licenseData.firstName = [] ∧ licenseData.lastName = [] ∧
          licenseData.address = [] ∧ licenseData.city = [] ∧
          licenseData.licenseNumber = [] then
        ScanClass.warning
      else ScanClass.success

/-- State of the framed-transport read loop in `sendScannerCommand`
(`main.go`): the wall clock, the accumulated response buffer, and the
has-received-any-data flag. -/
structure ReadState where
  now : Nat
  buffer : Str
  hasReceivedData : Bool
  deriving DecidableEq, Repr

/-- What one `readWithTimeout` call can yield: a data fragment, a
per-fragment timeout, or a genuine I/O fault. -/
inductive ReadOutcome where
  | fragment (bytes : Str)
  | timeout
  | ioFault
  deriving DecidableEq, Repr

/-- One scheduled read: its duration and its outcome. -/
structure ReadEvent where
  dt : Nat
  outcome : ReadOutcome
  deriving DecidableEq, Repr

/-- Result of one loop iteration. -/
inductive LoopStep where
  | continueLoop (st : ReadState)
  | finished (st : ReadState)
  | failed
  deriving DecidableEq, Repr

/-- One iteration of the read loop of `sendScannerCommand` (`main.go`): the
overall-deadline check guards the iteration; a data fragment is appended and
sets the flag; a per-fragment timeout breaks the loop only when data has
already been received and is otherwise ignored; an I/O fault aborts. -/
def loopStep (deadline : Nat) (st : ReadState) (ev : ReadEvent) : LoopStep :=
  if st.now < deadline then
    match ev.outcome with
    | ReadOutcome.fragment bs =>
      LoopStep.continueLoop
        { now := st.now + ev.dt, buffer := st.buffer ++ bs, hasReceivedData := true }
    | ReadOutcome.timeout =>
      if st.hasReceivedData then LoopStep.finished { st with now := st.now + ev.dt }
      else LoopStep.continueLoop { st with now := st.now + ev.dt }
    | ReadOutcome.ioFault => LoopStep.failed
  else LoopStep.finished st

/-- Final result of the read loop. -/
inductive LoopResult where
  | done (st : ReadState)
  | fault
  deriving DecidableEq, Repr

/-- Run the read loop over a schedule of read events. -/
def runReadLoop (deadline : Nat) (st : ReadState) : List ReadEvent → LoopResult
  | [] => LoopResult.done st
  | ev :: evs =>
    match loopStep deadline st ev with
    | LoopStep.continueLoop st2 => runReadLoop deadline st2 evs
    | LoopStep.finished st2 => LoopResult.done st2
    | LoopStep.failed => LoopResult.fault

/-- Height rule of the record post-processing (`parseLicenseData` in
`unnamed/part_004`): append a `cm` suffix when the height is non-empty and
does not already contain one. -/
def normalizeHeight (license : LicenseData) : LicenseData :=
  if license.height ≠ [] ∧ containsSub (toStr "cm") license.height = false then
    { license with height := license.height ++ toStr "cm" }
  else license

/-- License-class rule of the record post-processing (end of
`parseAAMVALicenseData` in `main.go`): default to the `NA` sentinel when
empty. -/
def normalizeClass (license : LicenseData) : LicenseData :=
  if license.licenseClass = [] then { license with licenseClass := toStr "NA" }
  else license

/-- The record post-processing the spec calls the Normalizer: the height rule
followed by the license-class rule. -/
def normalizeRecord (license : LicenseData) : LicenseData :=
  normalizeClass (normalizeHeight license)

example :
    parseAAMVALicenseData (toStr "DCSSMITH\nDACJOHN\nDBA20300615\nDBC1") =
      { lastName := toStr "SMITH", firstName := toStr "JOHN",
        expiryDate := toStr "2030/06/15", sex := toStr "M",
        licenseClass := toStr "NA",
        rawData := toStr "DCSSMITH\nDACJOHN\nDBA20300615\nDBC1" } := by decide

example :
    (parseAAMVALicenseData6 (toStr "DAQABCDE12345FGHIJ")).licenseNumber =
      toStr "ABCDE-12345-FGHIJ" := by decide

example :
    (parseAAMVALicenseData (toStr "DAQABCDE12345FGHIJ")).licenseNumber =
      toStr "ABCDE12345FGHIJ" := by decide

example : classifyScanResult 25 (toStr " \n") = ScanClass.noScan := by decide

example : classifyScanResult 25 [nakChar] = ScanClass.noScan := by decide

example :
    classifyScanResult 25 (toStr "DCSSMITH\nDACJOHN") = ScanClass.success := by decide

theorem hasPrefixS_length (p l : Str) (h : hasPrefixS p l = true) : p.length ≤ l.length := by
  induction p generalizing l with
  | nil => simp
  | cons x xs ih =>
    cases l with
    | nil => simp [hasPrefixS] at h
    | cons c cs =>
      simp only [hasPrefixS, Bool.and_eq_true] at h
      simpa [Nat.succ_le_succ_iff] using ih cs h.2

theorem hasPrefixS_self (t : Str) : hasPrefixS t t = true := by
  induction t with
  | nil => rfl
  | cons c cs ih => simp [hasPrefixS, ih]

theorem containsSub_append_self (t h : Str) : containsSub t (h ++ t) = true := by
  induction h with
  | nil =>
    cases t with
    | nil => rfl
    | cons c cs => simp [containsSub, hasPrefixS_self]
  | cons c h ih => simp [containsSub, ih]

theorem findSemiNum_spec (s full : Str) (h : findSemiNum s = some full) :
    13 ≤ full.length ∧ full.length ≤ 16 ∧ full.all Char.isDigit = true := by
  induction s with
  | nil => simp [findSemiNum] at h
  | cons c rest ih =>
    simp only [findSemiNum] at h
    split at h
    · split at h
      · rename_i hg
        cases h
        refine ⟨hg.1, hg.2.1, ?_⟩
        simp only [List.all_eq_true]
        intro x hx
        exact List.mem_takeWhile_imp hx
      · exact ih h
    · exact ih h

theorem findEqDate_spec (s d : Str) (h : findEqDate s = some d) :
    d.length = 12 ∧ d.all Char.isDigit = true := by
  induction s with
  | nil => simp [findEqDate] at h
  | cons c rest ih =>
    simp only [findEqDate] at h
    split at h
    · split at h
      · rename_i hg
        cases h
        exact ⟨hg.1, hg.2.1⟩
      · exact ih h
    · exact ih h

theorem findDCAG_eq_none (l : Str) (h : containsSub (toStr "DCAG") l = false) :
    findDCAG l = none := by
  induction l with
  | nil => rfl
  | cons c rest ih =>
    simp only [containsSub, Bool.or_eq_false_iff] at h
    rw [findDCAG]
    simp [h.1, ih h.2]

theorem bcCityStep_licenseNumber (parts : List Str) (lic : LicenseData) :
    (bcCityStep parts lic).licenseNumber = lic.licenseNumber := by
  simp only [bcCityStep]
  repeat' split
  all_goals rfl

theorem bcNameStep_licenseNumber (parts : List Str) (lic : LicenseData) :
    (bcNameStep parts lic).licenseNumber = lic.licenseNumber := by
  simp only [bcNameStep]
  repeat' split
  all_goals rfl

theorem bcAddressStep_licenseNumber (parts : List Str) (lic : LicenseData) :
    (bcAddressStep parts lic).licenseNumber = lic.licenseNumber := by
  simp only [bcAddressStep]
  repeat' split
  all_goals rfl

theorem bcDatesStep_licenseNumber (y : Nat) (raw : Str) (lic : LicenseData) :
    (bcDatesStep y raw lic).licenseNumber = lic.licenseNumber := by
  simp only [bcDatesStep]
  repeat' split
  all_goals rfl

theorem bcSexHeightStep_licenseNumber (raw : Str) (lic : LicenseData) :
    (bcSexHeightStep raw lic).licenseNumber = lic.licenseNumber := by
  simp only [bcSexHeightStep]
  repeat' split
  all_goals rfl

theorem bcSexHeightStep_dob (raw : Str) (lic : LicenseData) :
    (bcSexHeightStep raw lic).dob = lic.dob := by
  simp only [bcSexHeightStep]
  repeat' split
  all_goals rfl

/-- The `main.go` license-number rule: whenever regex `;(\d{13,16})=`
matches the cleaned payload, the matched run is 13 to 16 digits and the
record's license number is exactly the last 7 characters of that run. -/
theorem bc_license_number_last_seven (y : Nat) (s full : Str)
    (h : findSemiNum (cleanBCRaw s) = some full) :
    13 ≤ full.length ∧ full.length ≤ 16 ∧ full.all Char.isDigit = true ∧
      (parseBCLicenseData y s).licenseNumber = full.drop (full.length - 7) := by
  obtain ⟨h13, h16, hdig⟩ := findSemiNum_spec _ _ h
  refine ⟨h13, h16, hdig, ?_⟩
  have h7 : 7 ≤ full.length := le_trans (by norm_num : (7 : Nat) ≤ 13) h13
  simp only [parseBCLicenseData, bcSexHeightStep_licenseNumber, bcDatesStep_licenseNumber]
  simp [bcLicNumStep, h, h7]

/-- Claim C3: the two-digit birth year `B` extracted by the provincial parser
resolves against the current year's last two digits `Y` as `19B` when
`B > Y` and as `20B` when `B ≤ Y`. -/
theorem bc_birth_year_century_rule (y : Nat) (s d : Str)
    (h : findEqDate (cleanBCRaw s) = some d) :
    (y < atoiDef (subStr d 6 8) →
      (parseBCLicenseData y s).dob =
        toStr "19" ++ subStr d 6 8 ++ toStr "-" ++ subStr d 8 10 ++ toStr "-" ++ subStr d 10 12) ∧
    (atoiDef (subStr d 6 8) ≤ y →
      (parseBCLicenseData y s).dob =
        toStr "20" ++ subStr d 6 8 ++ toStr "-" ++ subStr d 8 10 ++ toStr "-" ++ subStr d 10 12) := by
  constructor
  · intro hgt
    simp only [parseBCLicenseData, bcSexHeightStep_dob]
    simp [bcDatesStep, h, hgt]
  · intro hle
    simp only [parseBCLicenseData, bcSexHeightStep_dob]
    simp [bcDatesStep, h, Nat.not_lt.mpr hle]

/-- Witness for C3 at the spec's boundary examples: with current year 25, a
birth year of 26 resolves to 1926 and a birth year of 24 resolves to 2024. -/
theorem bc_birth_year_century_rule_witness :
    (parseBCLicenseData 25 (toStr "=271220261212=")).dob = toStr "1926-12-12" ∧
      (parseBCLicenseData 25 (toStr "=271220241212=")).dob = toStr "2024-12-12" :=
  ⟨by
    have h := (bc_birth_year_century_rule 25 (toStr "=271220261212=")
      (toStr "271220261212") (by decide)).1 (by decide)
    exact h.trans (by decide),
   by
    have h := (bc_birth_year_century_rule 25 (toStr "=271220241212=")
      (toStr "271220241212") (by decide)).2 (by decide)
    exact h.trans (by decide)⟩

/-- Claim C4: a framed response that trims to the empty string or to the
single NAK byte is classified as a no-scan, never as a warning or success. -/
theorem scan_empty_or_nak_is_noscan (y : Nat) (s : Str)
    (h : trimSpaceS s = [] ∨ trimSpaceS s = [nakChar]) :
    classifyScanResult y s = ScanClass.noScan := by
  rcases h with h | h
  · simp [classifyScanResult, h]
  · simp [classifyScanResult, h]

/-- Witness for C4: the empty response and the lone NAK byte both classify as
no-scan. -/
theorem scan_empty_or_nak_is_noscan_witness :
    classifyScanResult 25 [] = ScanClass.noScan ∧
      classifyScanResult 25 [nakChar] = ScanClass.noScan ∧
      classifyScanResult 25 (toStr " ") = ScanClass.noScan :=
  ⟨scan_empty_or_nak_is_noscan 25 [] (Or.inl (by decide)),
   scan_empty_or_nak_is_noscan 25 [nakChar] (Or.inr (by decide)),
   scan_empty_or_nak_is_noscan 25 (toStr " ") (Or.inl (by decide))⟩

/-- Claim C5: inside the overall deadline, a per-fragment timeout with no data
received yet never terminates the read loop (it continues with only the clock
advanced, and the whole run is unchanged apart from that), and a per-fragment
timeout finishes the loop only when at least one fragment has already been
received. -/
theorem read_timeout_before_data_keeps_waiting (deadline : Nat) (st : ReadState)
    (d : Nat) (evs : List ReadEvent) (hlt : st.now < deadline) :
    (st.hasReceivedData = false →
      loopStep deadline st ⟨d, ReadOutcome.timeout⟩ =
          LoopStep.continueLoop { st with now := st.now + d } ∧
        runReadLoop deadline st (⟨d, ReadOutcome.timeout⟩ :: evs) =
          runReadLoop deadline { st with now := st.now + d } evs) ∧
    (∀ st2, loopStep deadline st ⟨d, ReadOutcome.timeout⟩ = LoopStep.finished st2 →
      st.hasReceivedData = true) := by
  constructor
  · intro hnd
    constructor
    · simp [loopStep, hlt, hnd]
    · simp [runReadLoop, loopStep, hlt, hnd]
  · intro st2 hfin
    by_contra hnd
    simp only [Bool.not_eq_true] at hnd
    simp [loopStep, hlt, hnd] at hfin

/-- Witness for C5 at a concrete loop state: a timeout 2 ticks into a
10-tick deadline with an empty buffer continues the loop. -/
theorem read_timeout_before_data_keeps_waiting_witness :
    loopStep 10 ⟨2, [], false⟩ ⟨3, ReadOutcome.timeout⟩ =
        LoopStep.continueLoop ⟨5, [], false⟩ ∧
      runReadLoop 10 ⟨2, [], false⟩ [⟨3, ReadOutcome.timeout⟩] =
        runReadLoop 10 ⟨5, [], false⟩ [] :=
  ((read_timeout_before_data_keeps_waiting 10 ⟨2, [], false⟩ 3 [] (by decide)).1 rfl)

/-- Claim C8: the record post-processing (height `cm` suffix only when
absent, license class defaulted to `NA` only when empty) is idempotent. -/
theorem normalizeClass_height (r : LicenseData) :
    (normalizeClass r).height = r.height := by
  unfold normalizeClass
  split
  all_goals rfl

theorem normalizeHeight_fixed (r : LicenseData)
    (h : ¬(r.height ≠ [] ∧ containsSub (toStr "cm") r.height = false)) :
    normalizeHeight r = r := by
  unfold normalizeHeight
  exact if_neg h

theorem normalizeHeight_no_retrigger (r : LicenseData) :
    ¬((normalizeHeight r).height ≠ [] ∧
        containsSub (toStr "cm") (normalizeHeight r).height = false) := by
  unfold normalizeHeight
  by_cases h : r.height ≠ [] ∧ containsSub (toStr "cm") r.height = false
  · simp [h, containsSub_append_self]
  · simp only [if_neg h]
    exact h

theorem normalizeClass_idem (r : LicenseData) :
    normalizeClass (normalizeClass r) = normalizeClass r := by
  unfold normalizeClass
  by_cases h : r.licenseClass = []
  · simp only [if_pos h]
    have : toStr "NA" ≠ ([] : Str) := by decide
    simp [this]
  · simp only [if_neg h, if_neg h]

/-- Claim C8: the record post-processing (height `cm` suffix only when
absent, license class defaulted to `NA` only when empty) is idempotent. -/
theorem normalizeRecord_idempotent (r : LicenseData) :
    normalizeRecord (normalizeRecord r) = normalizeRecord r := by
  unfold normalizeRecord
  have hh : normalizeHeight (normalizeClass (normalizeHeight r)) =
      normalizeClass (normalizeHeight r) := by
    apply normalizeHeight_fixed
    intro hc
    refine normalizeHeight_no_retrigger r ?_
    rw [normalizeClass_height] at hc
    exact hc
  rw [hh, normalizeClass_idem]

theorem bcCityStep_state (parts : List Str) (lic : LicenseData) :
    (bcCityStep parts lic).state = lic.state := by
  simp only [bcCityStep]
  repeat' split
  all_goals rfl

theorem bcNameStep_state (parts : List Str) (lic : LicenseData) :
    (bcNameStep parts lic).state = lic.state := by
  simp only [bcNameStep]
  repeat' split
  all_goals rfl

theorem bcAddressStep_state (parts : List Str) (lic : LicenseData) :
    (bcAddressStep parts lic).state = lic.state ∨
      (bcAddressStep parts lic).state = toStr "BC" := by
  simp only [bcAddressStep]
  repeat' split
  all_goals simp

theorem bcLicNumStep_state (raw : Str) (lic : LicenseData) :
    (bcLicNumStep raw lic).state = lic.state := by
  simp only [bcLicNumStep]
  repeat' split
  all_goals rfl

theorem bcDatesStep_state (y : Nat) (raw : Str) (lic : LicenseData) :
    (bcDatesStep y raw lic).state = lic.state := by
  simp only [bcDatesStep]
  repeat' split
  all_goals rfl

theorem bcSexHeightStep_state (raw : Str) (lic : LicenseData) :
    (bcSexHeightStep raw lic).state = lic.state := by
  simp only [bcSexHeightStep]
  repeat' split
  all_goals rfl

theorem parseBCLicenseData_state (y : Nat) (s : Str) :
    (parseBCLicenseData y s).state = [] ∨ (parseBCLicenseData y s).state = toStr "BC" := by
  simp only [parseBCLicenseData, bcSexHeightStep_state, bcDatesStep_state, bcLicNumStep_state]
  rcases bcAddressStep_state (splitChar '^' (cleanBCRaw s))
      (bcNameStep (splitChar '^' (cleanBCRaw s))
        (bcCityStep (splitChar '^' (cleanBCRaw s)) (bcInit s))) with h | h
  · left
    rw [h, bcNameStep_state, bcCityStep_state]
    rfl
  · right
    exact h

/-- Claim C10: a payload containing the Alberta marker `%AB` and no `%BC`
marker is dispatched to the provincial (BC) parser, and that parser's
state-or-province field is always either empty or `BC` - never `AB`. -/
theorem alberta_routed_to_bc_parsing (y : Nat) (s : Str)
    (hab : containsSub (toStr "%AB") (trimPrefixS [nakChar] s) = true)
    (hbc : containsSub (toStr "%BC") (trimPrefixS [nakChar] s) = false) :
    parseLicenseData y s = parseBCLicenseData y s ∧
      ((parseLicenseData y s).state = [] ∨ (parseLicenseData y s).state = toStr "BC") := by
  have hd : parseLicenseData y s = parseBCLicenseData y s := by
    simp [parseLicenseData, hab, hbc]
  refine ⟨hd, ?_⟩
  rw [hd]
  exact parseBCLicenseData_state y s

/-- Witness for C10 at a concrete Alberta payload. -/
theorem alberta_routed_to_bc_parsing_witness :
    parseLicenseData 25 (toStr "%ABCALGARY^DOE,$JANE^10 AVE SW") =
        parseBCLicenseData 25 (toStr "%ABCALGARY^DOE,$JANE^10 AVE SW") ∧
      ((parseLicenseData 25 (toStr "%ABCALGARY^DOE,$JANE^10 AVE SW")).state = [] ∨
        (parseLicenseData 25 (toStr "%ABCALGARY^DOE,$JANE^10 AVE SW")).state = toStr "BC") :=
  alberta_routed_to_bc_parsing 25 (toStr "%ABCALGARY^DOE,$JANE^10 AVE SW")
    (by decide) (by decide)

/-- Counterexample to claim C6 as stated: on this format-unknown payload the
provincial attempt extracts a non-empty address, so per the claim the
provincial result should be returned; the dispatcher nevertheless re-attempts
AAMVA (it only inspects first name, last name and license number) and returns
the AAMVA record, whose address is empty. -/
theorem unknown_fallback_ignores_address_counterexample :
    containsSub (toStr "%BC") (toStr "a^b^MAIN ST") = false ∧
      containsSub (toStr "%AB") (toStr "a^b^MAIN ST") = false ∧
      containsSub (toStr "ANSI ") (toStr "a^b^MAIN ST") = false ∧
      containsSub (toStr "DCS") (toStr "a^b^MAIN ST") = false ∧
      containsSub (toStr "DAQ") (toStr "a^b^MAIN ST") = false ∧
      (parseBCLicenseData 25 (toStr "a^b^MAIN ST")).address = toStr "MAIN ST" ∧
      (parseBCLicenseData 25 (toStr "a^b^MAIN ST")).firstName = [] ∧
      (parseBCLicenseData 25 (toStr "a^b^MAIN ST")).lastName = [] ∧
      (parseBCLicenseData 25 (toStr "a^b^MAIN ST")).licenseNumber = [] ∧
      parseLicenseData 25 (toStr "a^b^MAIN ST") = parseAAMVALicenseData (toStr "a^b^MAIN ST") ∧
      parseLicenseData 25 (toStr "a^b^MAIN ST") ≠ parseBCLicenseData 25 (toStr "a^b^MAIN ST") ∧
      (parseLicenseData 25 (toStr "a^b^MAIN ST")).address = [] := by
  decide

/-- Claim C6 as amended: for a payload matching no dispatch marker, the
dispatcher runs the provincial parser first and re-attempts with the AAMVA
parser exactly when the provincial result yields no first name, no last name
and no license number - the address is not consulted. -/
theorem unknown_fallback_dispatch (y : Nat) (s : Str)
    (h1 : containsSub (toStr "%BC") (trimPrefixS [nakChar] s) = false)
    (h2 : containsSub (toStr "%AB") (trimPrefixS [nakChar] s) = false)
    (h3 : containsSub (toStr "ANSI ") (trimPrefixS [nakChar] s) = false)
    (h4 : containsSub (toStr "DCS") (trimPrefixS [nakChar] s) = false)
    (h5 : containsSub (toStr "DAQ") (trimPrefixS [nakChar] s) = false) :
    parseLicenseData y s =
      (if (parseBCLicenseData y s).firstName = [] ∧ (parseBCLicenseData y s).lastName = [] ∧
          (parseBCLicenseData y s).licenseNumber = [] then
        parseAAMVALicenseData s
      else parseBCLicenseData y s) := by
  simp [parseLicenseData, h1, h2, h3, h4, h5]

/-- Witness for the amended C6 at a concrete unknown payload. -/
theorem unknown_fallback_dispatch_witness :
    parseLicenseData 25 (toStr "a^b^MAIN ST") =
      (if (parseBCLicenseData 25 (toStr "a^b^MAIN ST")).firstName = [] ∧
          (parseBCLicenseData 25 (toStr "a^b^MAIN ST")).lastName = [] ∧
          (parseBCLicenseData 25 (toStr "a^b^MAIN ST")).licenseNumber = [] then
        parseAAMVALicenseData (toStr "a^b^MAIN ST")
      else parseBCLicenseData 25 (toStr "a^b^MAIN ST")) :=
  unknown_fallback_dispatch 25 (toStr "a^b^MAIN ST")
    (by decide) (by decide) (by decide) (by decide) (by decide)

theorem applyDCAG_licenseNumber (line : Str) (st : AamvaFields) :
    (applyDCAG line st).licenseNumber = st.licenseNumber := by
  unfold applyDCAG
  split
  all_goals rfl

/-- Counterexample to claim C2 as stated: in `main.go` a 15-character DAQ
value and a 15-character DCF value are both stored trimmed and unchanged,
not re-hyphenated as 5-5-5. -/
theorem aamva_daq_not_hyphenated_counterexample :
    (trimSpaceS (toStr "ABCDE12345FGHIJ")).length = 15 ∧
      (parseAAMVALicenseData (toStr "DAQABCDE12345FGHIJ")).licenseNumber =
        toStr "ABCDE12345FGHIJ" ∧
      (parseAAMVALicenseData (toStr "DCFABCDE12345FGHIJ")).licenseNumber =
        toStr "ABCDE12345FGHIJ" ∧
      toStr "ABCDE12345FGHIJ" ≠ toStr "ABCDE-12345-FGHIJ" := by
  decide

/-- Claim C2 as amended: in the `unnamed/part_006` variant, a DAQ value whose
trim is exactly 15 characters is re-hyphenated as 5-5-5 and any other length
is stored trimmed and unchanged; in `main.go`, a DAQ value is stored trimmed
and unchanged at every length (and only when no license number was already
recorded, DCF taking precedence), and a DCF value is stored trimmed and
unchanged at every length. -/
theorem aamva_license_number_by_variant (st : AamvaFields) (v : Str) :
    ((aamvaLineStep6 st (toStr "DAQ" ++ v)).licenseNumber =
      some (if (trimSpaceS v).length = 15 then
              subStr (trimSpaceS v) 0 5 ++ toStr "-" ++ subStr (trimSpaceS v) 5 10 ++
                toStr "-" ++ subStr (trimSpaceS v) 10 15
            else trimSpaceS v)) ∧
    ((aamvaLineStep st (toStr "DAQ" ++ v)).licenseNumber =
      some (st.licenseNumber.getD (trimSpaceS v))) ∧
    ((aamvaLineStep st (toStr "DCF" ++ v)).licenseNumber = some (trimSpaceS v)) := by
  refine ⟨?_, ?_, ?_⟩
  · simp only [aamvaLineStep6, applyDCAG_licenseNumber]
    simp [hasPrefixS, toStr]
  · simp only [aamvaLineStep, applyDCAG_licenseNumber]
    simp only [hasPrefixS, toStr]
    simp [hasPrefixS, toStr]
    cases hc : st.licenseNumber <;> simp [hc]
  · simp only [aamvaLineStep, applyDCAG_licenseNumber]
    simp [hasPrefixS, toStr]

/-- The element-code table of the `main.go` AAMVA parser, in source order. -/
def aamvaCodes : List Str :=
  [toStr "DCS", toStr "DAC", toStr "DAD", toStr "DBA", toStr "DBD", toStr "DBB",
   toStr "DBC", toStr "DAU", toStr "DAG", toStr "DAI", toStr "DAJ", toStr "DAK",
   toStr "DCF", toStr "DAQ"]

theorem aamvaLineStep_unrecognized (st : AamvaFields) (l : Str)
    (h1 : ∀ code ∈ aamvaCodes, hasPrefixS code l = false)
    (h2 : containsSub (toStr "DCAG") l = false) :
    aamvaLineStep st l = st := by
  have hDCS := h1 (toStr "DCS") (by simp [aamvaCodes])
  have hDAC := h1 (toStr "DAC") (by simp [aamvaCodes])
  have hDAD := h1 (toStr "DAD") (by simp [aamvaCodes])
  have hDBA := h1 (toStr "DBA") (by simp [aamvaCodes])
  have hDBD := h1 (toStr "DBD") (by simp [aamvaCodes])
  have hDBB := h1 (toStr "DBB") (by simp [aamvaCodes])
  have hDBC := h1 (toStr "DBC") (by simp [aamvaCodes])
  have hDAU := h1 (toStr "DAU") (by simp [aamvaCodes])
  have hDAG := h1 (toStr "DAG") (by simp [aamvaCodes])
  have hDAI := h1 (toStr "DAI") (by simp [aamvaCodes])
  have hDAJ := h1 (toStr "DAJ") (by simp [aamvaCodes])
  have hDAK := h1 (toStr "DAK") (by simp [aamvaCodes])
  have hDCF := h1 (toStr "DCF") (by simp [aamvaCodes])
  have hDAQ := h1 (toStr "DAQ") (by simp [aamvaCodes])
  have hdcag := findDCAG_eq_none l h2
  simp [aamvaLineStep, hDCS, hDAC, hDAD, hDBA, hDBD, hDBB, hDBC, hDAU, hDAG,
    hDAI, hDAJ, hDAK, hDCF, hDAQ, applyDCAG, hdcag]

/-- Counterexample to claim C7 as stated: the line `XXXDCAG7` begins with the
unrecognized 3-letter code `XXX`, yet inserting it changes the extracted
license class from the `NA` default to `7`, because the `DCAG` scan runs on
every line regardless of its leading code. -/
theorem aamva_dcag_leak_counterexample :
    (∀ code ∈ aamvaCodes, hasPrefixS code (toStr "XXXDCAG7") = false) ∧
      (parseAAMVALicenseData (toStr "DCSSMITH\nXXXDCAG7")).licenseClass = toStr "7" ∧
      (parseAAMVALicenseData (toStr "DCSSMITH")).licenseClass = toStr "NA" ∧
      (parseAAMVALicenseData (toStr "DCSSMITH\nXXXDCAG7")).licenseClass ≠
        (parseAAMVALicenseData (toStr "DCSSMITH")).licenseClass := by
  decide

/-- Claim C7 as amended: inserting a line whose trim begins with a 3-letter
code outside the recognized table and does not contain the substring `DCAG`
leaves every extracted field of the AAMVA parse unchanged; a line containing
`DCAG` can change the license class even when its leading code is
unrecognized. -/
theorem aamva_unrecognized_line_isolation (pre post : List Str) (l : Str)
    (h1 : ∀ code ∈ aamvaCodes, hasPrefixS code (trimSpaceS l) = false)
    (h2 : containsSub (toStr "DCAG") (trimSpaceS l) = false) :
    parseAAMVAFromLines (pre ++ l :: post) = parseAAMVAFromLines (pre ++ post) := by
  unfold parseAAMVAFromLines
  congr 1
  unfold aamvaPrepLines
  rw [List.map_append, List.map_append, List.map_cons, List.filter_append,
    List.filter_append, List.filter_cons]
  by_cases he : trimSpaceS l = []
  · simp [he]
  · have hne : (decide (trimSpaceS l ≠ [])) = true := by simp [he]
    simp only [hne, if_true]
    rw [List.foldl_append, List.foldl_append, List.foldl_cons,
      aamvaLineStep_unrecognized _ _ h1 h2]

/-- Witness for the amended C7 at a concrete payload and inserted line. -/
theorem aamva_unrecognized_line_isolation_witness :
    parseAAMVAFromLines ([toStr "DCSSMITH"] ++ toStr "XYZ1" :: []) =
      parseAAMVAFromLines ([toStr "DCSSMITH"] ++ []) :=
  aamva_unrecognized_line_isolation [toStr "DCSSMITH"] [] (toStr "XYZ1")
    (by decide) (by decide)

/-- Go slice `s[a:]` with Go's bounds rule: panics (modelled as `none`) unless
`0 ≤ a ≤ len(s)`. -/
def goSliceFrom (s : Str) (a : Int) : Option Str :=
  if 0 ≤ a ∧ a ≤ s.length then some (s.drop a.toNat) else none

/-- Go slice `s[a:b]` with Go's bounds rule: panics (modelled as `none`)
unless `a ≤ b ≤ len(s)`. -/
def goSliceRange (s : Str) (a b : Nat) : Option Str :=
  if a ≤ b ∧ b ≤ s.length then some ((s.drop a).take (b - a)) else none

/-- Go index `xs[i]` on a slice of strings: panics (modelled as `none`) when
out of range. -/
def goIndex (l : List Str) (i : Nat) : Option Str := l.get? i

/-- City section of `parseBCLicenseData` with every Go index modelled as a
fallible access. -/
def bcCityStepChecked (parts : List Str) (lic : LicenseData) : Option LicenseData :=
  if 1 ≤ parts.length then do
    let p0 ← goIndex parts 0
    if hasPrefixS (toStr "%BC") p0 then
      pure { lic with city := trimSpaceS (trimPrefixS (toStr "%BC") p0) }
    else pure lic
  else pure lic

/-- Name section of `parseBCLicenseData` with every Go index modelled as a
fallible access. -/
def bcNameStepChecked (parts : List Str) (lic : LicenseData) : Option LicenseData :=
  if 2 ≤ parts.length then do
    let p1 ← goIndex parts 1
    let nameParts := splitChar ',' p1
    if 2 ≤ nameParts.length then do
      let n0 ← goIndex nameParts 0
      let n1 ← goIndex nameParts 1
      let lastName := trimSpaceS (trimPrefixS (toStr "$") n0)
      let fullName := trimSpaceS (trimPrefixS (toStr "$") n1)
      let fnParts := goSplitN2 ' ' fullName
      let fn ← goIndex fnParts 0
      let lic := { lic with lastName := lastName, firstName := fn }
      if 1 < fnParts.length then do
        let m ← goIndex fnParts 1
        pure { lic with middleName := m }
      else pure lic
    else pure lic
  else pure lic

/-- Address section of `parseBCLicenseData` with every Go index modelled as a
fallible access. -/
def bcAddressStepChecked (parts : List Str) (lic : LicenseData) : Option LicenseData :=
  if 3 ≤ parts.length then do
    let p2 ← goIndex parts 2
    if containsSub (toStr "$") p2 then do
      let addressParts := splitChar '$' p2
      let a0 ← goIndex addressParts 0
      let lic := { lic with address := trimSpaceS a0 }
      if 1 < addressParts.length then do
        let a1 ← goIndex addressParts 1
        let statePostal := trimSpaceS a1
        let lic :=
          if containsSub (toStr "BC") statePostal then { lic with state := toStr "BC" }
          else lic
        match findPostal statePostal with
        | some m => if m ≠ [] then pure { lic with postal := m } else pure lic
        | none => pure lic
      else pure lic
    else pure { lic with address := trimSpaceS p2 }
  else pure lic

/-- License-number section of `parseBCLicenseData` with the Go slice
`full[len(full)-7:]` modelled as a fallible access. -/
def bcLicNumStepChecked (raw : Str) (lic : LicenseData) : Option LicenseData :=
  match findSemiNum raw with
  | some full =>
    if 7 ≤ full.length then do
      let tail ← goSliceFrom full ((full.length : Int) - 7)
      pure { lic with licenseNumber := tail }
    else pure lic
  | none => pure lic

/-- Dates section of `parseBCLicenseData` with every Go slice of the 12-digit
match modelled as a fallible access. -/
def bcDatesStepChecked (currentYear2 : Nat) (raw : Str) (lic : LicenseData) :
    Option LicenseData :=
  match findEqDate raw with
  | some dateStr => do
    let expiryDay ← goSliceRange dateStr 0 2
    let expiryMonth ← goSliceRange dateStr 2 4
    let ey ← goSliceRange dateStr 4 6
    let expiryYear := toStr "20" ++ ey
    let dobYearShort ← goSliceRange dateStr 6 8
    let dobYearNum := atoiDef dobYearShort
    let dobYear :=
      if currentYear2 < dobYearNum then toStr "19" ++ dobYearShort
      else toStr "20" ++ dobYearShort
    let dobMonth ← goSliceRange dateStr 8 10
    let dobDay ← goSliceRange dateStr 10 12
    pure { lic with
      expiryDate := expiryYear ++ toStr "-" ++ expiryMonth ++ toStr "-" ++ expiryDay,
      dob := dobYear ++ toStr "-" ++ dobMonth ++ toStr "-" ++ dobDay }
  | none => pure lic

/-- Checked variant of `parseBCLicenseData`: the same pipeline with every Go
string index and slice modelled as a fallible access (the sex/height section
indexes only the regex groups whose presence its length guard established, so
it is reused unchanged). -/
def parseBCLicenseDataChecked (currentYear2 : Nat) (rawInput : Str) :
    Option LicenseData := do
  let raw := cleanBCRaw rawInput
  let parts := splitChar '^' raw
  let lic ← bcCityStepChecked parts (bcInit rawInput)
  let lic ← bcNameStepChecked parts lic
  let lic ← bcAddressStepChecked parts lic
  let lic ← bcLicNumStepChecked raw lic
  let lic ← bcDatesStepChecked currentYear2 raw lic
  pure (bcSexHeightStep raw lic)

theorem splitChar_ne_nil (sep : Char) (s : Str) : splitChar sep s ≠ [] := by
  cases s with
  | nil => simp [splitChar]
  | cons c rest =>
    rw [splitChar]
    split
    · simp
    · split
      · simp
      · simp

theorem bcCityStepChecked_eq (parts : List Str) (lic : LicenseData) :
    bcCityStepChecked parts lic = some (bcCityStep parts lic) := by
  cases parts with
  | nil => rfl
  | cons p0 rest =>
    simp only [bcCityStepChecked, bcCityStep, goIndex, List.get?]
    have h1 : 1 ≤ (p0 :: rest).length := by simp
    simp only [h1, if_true, Option.bind_eq_bind, Option.some_bind, Option.pure_def]
    split <;> rfl

theorem bcNameStepChecked_eq (parts : List Str) (lic : LicenseData) :
    bcNameStepChecked parts lic = some (bcNameStep parts lic) := by
  match parts with
  | [] => rfl
  | [p0] => rfl
  | p0 :: p1 :: rest =>
    simp only [bcNameStepChecked, bcNameStep, goIndex]
    have h2 : 2 ≤ (p0 :: p1 :: rest).length := by simp
    simp only [h2, if_true, List.get?, Option.bind_eq_bind, Option.some_bind,
      Option.pure_def]
    match hsp : splitChar ',' p1 with
    | [] => rfl
    | [n0] => simp [hsp]
    | n0 :: n1 :: ns =>
      have hlen : 2 ≤ (splitChar ',' p1).length := by rw [hsp]; simp
      simp only [hsp, List.length_cons, hlen, if_true, List.get?,
        Option.bind_eq_bind, Option.some_bind, Option.pure_def]
      match hfp : goSplitN2 ' ' (trimSpaceS (trimPrefixS (toStr "$") n1)) with
      | [] => simp [goSplitN2] at hfp; split at hfp <;> simp_all
      | [fn] => simp [hfp]
      | fn :: m :: ms => simp [hfp]

theorem bcAddressStepChecked_eq (parts : List Str) (lic : LicenseData) :
    bcAddressStepChecked parts lic = some (bcAddressStep parts lic) := by
  match parts with
  | [] => rfl
  | [p0] => rfl
  | [p0, p1] => rfl
  | p0 :: p1 :: p2 :: rest =>
    simp only [bcAddressStepChecked, bcAddressStep, goIndex]
    have h3 : 3 ≤ (p0 :: p1 :: p2 :: rest).length := by simp
    simp only [h3, if_true, List.get?, Option.bind_eq_bind, Option.some_bind,
      Option.pure_def]
    by_cases hdol : containsSub (toStr "$") p2 = true
    · simp only [hdol, if_true]
      match hsp : splitChar '$' p2 with
      | [] => exact absurd hsp (splitChar_ne_nil '$' p2)
      | [a0] => simp [hsp]
      | a0 :: a1 :: as =>
        have hlen : 1 < (splitChar '$' p2).length := by rw [hsp]; simp
        simp only [hsp, List.length_cons, hlen, if_true, List.get?,
          Option.bind_eq_bind, Option.some_bind, Option.pure_def]
        cases hfp : findPostal (trimSpaceS a1) with
        | some m =>
          by_cases hm : m = []
          · simp [hfp, hm]
          · simp [hfp, hm]
        | none => simp [hfp]
    · simp [hdol]

theorem bcLicNumStepChecked_eq (raw : Str) (lic : LicenseData) :
    bcLicNumStepChecked raw lic = some (bcLicNumStep raw lic) := by
  simp only [bcLicNumStepChecked, bcLicNumStep]
  match hm : findSemiNum raw with
  | none => rfl
  | some full =>
    by_cases h7 : 7 ≤ full.length
    · have hb : (0 : Int) ≤ (full.length : Int) - 7 ∧
          (full.length : Int) - 7 ≤ full.length := by omega
      have ht : ((full.length : Int) - 7).toNat = full.length - 7 := by omega
      simp [h7, goSliceFrom, hb, ht]
    · simp [h7]

theorem bcDatesStepChecked_eq (y : Nat) (raw : Str) (lic : LicenseData) :
    bcDatesStepChecked y raw lic = some (bcDatesStep y raw lic) := by
  simp only [bcDatesStepChecked, bcDatesStep]
  match hm : findEqDate raw with
  | none => rfl
  | some dateStr =>
    have h12 : dateStr.length = 12 := (findEqDate_spec raw dateStr hm).1
    simp [goSliceRange, h12, subStr]

theorem parseBCLicenseDataChecked_eq (y : Nat) (s : Str) :
    parseBCLicenseDataChecked y s = some (parseBCLicenseData y s) := by
  simp only [parseBCLicenseDataChecked, parseBCLicenseData, bcCityStepChecked_eq,
    bcNameStepChecked_eq, bcAddressStepChecked_eq, bcLicNumStepChecked_eq,
    bcDatesStepChecked_eq, Option.bind_some]
  rfl

theorem goSliceFrom3 (line : Str) (h : 3 ≤ line.length) :
    goSliceFrom line 3 = some (line.drop 3) := by
  have h0 : (0 : Int) ≤ 3 := by norm_num
  have h3 : (3 : Int) ≤ (line.length : Int) := by exact_mod_cast h
  simp [goSliceFrom, h0, h3]

theorem goSliceRange_of (s : Str) (a b : Nat) (hab : a ≤ b) (hb : b ≤ s.length) :
    goSliceRange s a b = some (subStr s a b) := by
  simp [goSliceRange, hab, hb, subStr]

/-- AAMVA line loop of `main.go` with every Go slice `line[3:]` and date
slice modelled as a fallible access (each is guarded in the source by the
prefix test or the length test of its branch). -/
def aamvaLineStepChecked (st : AamvaFields) (line : Str) : Option AamvaFields := do
  let st ←
    if hasPrefixS (toStr "DCS") line then do
      let v ← goSliceFrom line 3
      pure { st with lastName := some (trimSpaceS v) }
    else if hasPrefixS (toStr "DAC") line then do
      let v ← goSliceFrom line 3
      pure { st with firstName := some (trimSpaceS v) }
    else if hasPrefixS (toStr "DAD") line then do
      let v ← goSliceFrom line 3
      pure { st with middleName := some (trimSpaceS v) }
    else if hasPrefixS (toStr "DBA") line then do
      let v ← goSliceFrom line 3
      let d := trimSpaceS v
      if 8 ≤ d.length then do
        let y4 ← goSliceRange d 0 4
        let m2 ← goSliceRange d 4 6
        let d2 ← goSliceRange d 6 8
        pure { st with expiryDate := some (y4 ++ toStr "/" ++ m2 ++ toStr "/" ++ d2) }
      else pure st
    else if hasPrefixS (toStr "DBD") line then do
      let v ← goSliceFrom line 3
      let d := trimSpaceS v
      if 8 ≤ d.length then do
        let y4 ← goSliceRange d 0 4
        let m2 ← goSliceRange d 4 6
        let d2 ← goSliceRange d 6 8
        pure { st with issueDate := some (y4 ++ toStr "/" ++ m2 ++ toStr "/" ++ d2) }
      else pure st
    else if hasPrefixS (toStr "DBB") line then do
      let v ← goSliceFrom line 3
      let d := trimSpaceS v
      if 8 ≤ d.length then do
        let y4 ← goSliceRange d 0 4
        let m2 ← goSliceRange d 4 6
        let d2 ← goSliceRange d 6 8
        pure { st with dob := some (y4 ++ toStr "/" ++ m2 ++ toStr "/" ++ d2) }
      else pure st
    else if hasPrefixS (toStr "DBC") line then do
      let v ← goSliceFrom line 3
      let s := trimSpaceS v
      pure { st with sex := some (if s = toStr "1" then toStr "M" else if s = toStr "2" then toStr "F" else s) }
    else if hasPrefixS (toStr "DAU") line then do
      let v ← goSliceFrom line 3
      pure { st with height := some (removeAll ' ' (trimSpaceS v)) }
    else if hasPrefixS (toStr "DAG") line then do
      let v ← goSliceFrom line 3
      pure { st with address := some (trimSpaceS v) }
    else if hasPrefixS (toStr "DAI") line then do
      let v ← goSliceFrom line 3
      pure { st with city := some (trimSpaceS v) }
    else if hasPrefixS (toStr "DAJ") line then do
      let v ← goSliceFrom line 3
      pure { st with state := some (trimSpaceS v) }
    else if hasPrefixS (toStr "DAK") line then do
      let v ← goSliceFrom line 3
      pure { st with postal := some (trimSpaceS v) }
    else if hasPrefixS (toStr "DCF") line then do
      let v ← goSliceFrom line 3
      pure { st with licenseNumber := some (trimSpaceS v) }
    else if hasPrefixS (toStr "DAQ") line then
      match st.licenseNumber with
      | some _ => pure st
      | none => do
        let v ← goSliceFrom line 3
        pure { st with licenseNumber := some (trimSpaceS v) }
    else pure st
  pure (applyDCAG line st)

theorem aamvaLineStepChecked_eq (st : AamvaFields) (line : Str) :
    aamvaLineStepChecked st line = some (aamvaLineStep st line) := by
  have hsl : ∀ code : Str, code.length = 3 → hasPrefixS code line = true →
      goSliceFrom line 3 = some (line.drop 3) := by
    intro code hc h
    have hx := hasPrefixS_length _ _ h
    exact goSliceFrom3 line (by omega)
  have hdate : ∀ d : Str, 8 ≤ d.length →
      goSliceRange d 0 4 = some (subStr d 0 4) ∧
        goSliceRange d 4 6 = some (subStr d 4 6) ∧
        goSliceRange d 6 8 = some (subStr d 6 8) := by
    intro d hd
    exact ⟨goSliceRange_of d 0 4 (by omega) (by omega),
      goSliceRange_of d 4 6 (by omega) (by omega),
      goSliceRange_of d 6 8 (by omega) (by omega)⟩
  simp only [aamvaLineStepChecked, aamvaLineStep]
  by_cases h1 : hasPrefixS (toStr "DCS") line = true
  · simp [h1, hsl (toStr "DCS") rfl h1]
  simp only [h1, if_false, Bool.false_eq_true]
  by_cases h2 : hasPrefixS (toStr "DAC") line = true
  · simp [h2, hsl (toStr "DAC") rfl h2]
  simp only [h2, if_false, Bool.false_eq_true]
  by_cases h3 : hasPrefixS (toStr "DAD") line = true
  · simp [h3, hsl (toStr "DAD") rfl h3]
  simp only [h3, if_false, Bool.false_eq_true]
  by_cases h4 : hasPrefixS (toStr "DBA") line = true
  · by_cases hd : 8 ≤ (trimSpaceS (line.drop 3)).length
    · obtain ⟨g1, g2, g3⟩ := hdate _ hd
      simp [h4, hsl (toStr "DBA") rfl h4, hd, g1, g2, g3]
    · simp [h4, hsl (toStr "DBA") rfl h4, hd]
  simp only [h4, if_false, Bool.false_eq_true]
  by_cases h5 : hasPrefixS (toStr "DBD") line = true
  · by_cases hd : 8 ≤ (trimSpaceS (line.drop 3)).length
    · obtain ⟨g1, g2, g3⟩ := hdate _ hd
      simp [h5, hsl (toStr "DBD") rfl h5, hd, g1, g2, g3]
    · simp [h5, hsl (toStr "DBD") rfl h5, hd]
  simp only [h5, if_false, Bool.false_eq_true]
  by_cases h6 : hasPrefixS (toStr "DBB") line = true
  · by_cases hd : 8 ≤ (trimSpaceS (line.drop 3)).length
    · obtain ⟨g1, g2, g3⟩ := hdate _ hd
      simp [h6, hsl (toStr "DBB") rfl h6, hd, g1, g2, g3]
    · simp [h6, hsl (toStr "DBB") rfl h6, hd]
  simp only [h6, if_false, Bool.false_eq_true]
  by_cases h7 : hasPrefixS (toStr "DBC") line = true
  · simp [h7, hsl (toStr "DBC") rfl h7]
  simp only [h7, if_false, Bool.false_eq_true]
  by_cases h8 : hasPrefixS (toStr "DAU") line = true
  · simp [h8, hsl (toStr "DAU") rfl h8]
  simp only [h8, if_false, Bool.false_eq_true]
  by_cases h9 : hasPrefixS (toStr "DAG") line = true
  · simp [h9, hsl (toStr "DAG") rfl h9]
  simp only [h9, if_false, Bool.false_eq_true]
  by_cases h10 : hasPrefixS (toStr "DAI") line = true
  · simp [h10, hsl (toStr "DAI") rfl h10]
  simp only [h10, if_false, Bool.false_eq_true]
  by_cases h11 : hasPrefixS (toStr "DAJ") line = true
  · simp [h11, hsl (toStr "DAJ") rfl h11]
  simp only [h11, if_false, Bool.false_eq_true]
  by_cases h12 : hasPrefixS (toStr "DAK") line = true
  · simp [h12, hsl (toStr "DAK") rfl h12]
  simp only [h12, if_false, Bool.false_eq_true]
  by_cases h13 : hasPrefixS (toStr "DCF") line = true
  · simp [h13, hsl (toStr "DCF") rfl h13]
  simp only [h13, if_false, Bool.false_eq_true]
  by_cases h14 : hasPrefixS (toStr "DAQ") line = true
  · cases hc : st.licenseNumber with
    | some n => simp [h14, hc]
    | none => simp [h14, hc, hsl (toStr "DAQ") rfl h14]
  simp only [h14, if_false, Bool.false_eq_true]
  rfl

theorem foldlM_eq_foldl {α β : Type} (f : α → β → α) (g : α → β → Option α)
    (hg : ∀ a b, g a b = some (f a b)) :
    ∀ (ls : List β) (a : α), List.foldlM g a ls = some (List.foldl f a ls) := by
  intro ls
  induction ls with
  | nil => intro a; rfl
  | cons b bs ih =>
    intro a
    rw [List.foldlM_cons, hg, List.foldl_cons]
    simpa using ih (f a b)

/-- Checked variant of `parseAAMVALicenseData` (`main.go`): the line loop run
with the fallible line step. -/
def parseAAMVALicenseDataChecked (rawInput : Str) : Option LicenseData := do
  let raw := trimPrefixS [nakChar] rawInput
  let st ← List.foldlM aamvaLineStepChecked {} (aamvaPrepLines (splitChar '\n' raw))
  pure { aamvaAssemble st with rawData := raw }

theorem parseAAMVALicenseDataChecked_eq (s : Str) :
    parseAAMVALicenseDataChecked s = some (parseAAMVALicenseData s) := by
  simp only [parseAAMVALicenseDataChecked, parseAAMVALicenseData, parseAAMVAFromLines]
  rw [foldlM_eq_foldl aamvaLineStep aamvaLineStepChecked aamvaLineStepChecked_eq]
  simp

/-- Checked variant of `parseLicenseData` (`main.go`): dispatch over the
checked parsers. -/
def parseLicenseDataChecked (currentYear2 : Nat) (rawInput : Str) : Option LicenseData :=
  let cleanRaw := trimPrefixS [nakChar] rawInput
  if containsSub (toStr "%BC") cleanRaw then parseBCLicenseDataChecked currentYear2 rawInput
  else if containsSub (toStr "%AB") cleanRaw then parseBCLicenseDataChecked currentYear2 rawInput
  else if containsSub (toStr "ANSI ") cleanRaw then parseAAMVALicenseDataChecked rawInput
  else if containsSub (toStr "DCS") cleanRaw || containsSub (toStr "DAQ") cleanRaw then
    parseAAMVALicenseDataChecked rawInput
  else do
    let license ← parseBCLicenseDataChecked currentYear2 rawInput
    if license.firstName = [] ∧ license.lastName = [] ∧ license.licenseNumber = [] then
      parseAAMVALicenseDataChecked rawInput
    else pure license

theorem parseLicenseDataChecked_eq (y : Nat) (s : Str) :
    parseLicenseDataChecked y s = some (parseLicenseData y s) := by
  simp only [parseLicenseDataChecked, parseLicenseData]
  by_cases c1 : containsSub (toStr "%BC") (trimPrefixS [nakChar] s) = true
  · simp [c1, parseBCLicenseDataChecked_eq]
  simp only [c1, if_false, Bool.false_eq_true]
  by_cases c2 : containsSub (toStr "%AB") (trimPrefixS [nakChar] s) = true
  · simp [c2, parseBCLicenseDataChecked_eq]
  simp only [c2, if_false, Bool.false_eq_true]
  by_cases c3 : containsSub (toStr "ANSI ") (trimPrefixS [nakChar] s) = true
  · simp [c3, parseAAMVALicenseDataChecked_eq]
  simp only [c3, if_false, Bool.false_eq_true]
  by_cases c4 : (containsSub (toStr "DCS") (trimPrefixS [nakChar] s) ||
      containsSub (toStr "DAQ") (trimPrefixS [nakChar] s)) = true
  · simp [c4, parseAAMVALicenseDataChecked_eq]
  simp only [c4, if_false, Bool.false_eq_true]
  rw [parseBCLicenseDataChecked_eq]
  by_cases hc : (parseBCLicenseData y s).firstName = [] ∧
      (parseBCLicenseData y s).lastName = [] ∧ (parseBCLicenseData y s).licenseNumber = []
  · simp [hc, parseAAMVALicenseDataChecked_eq]
  · simp [hc]

/-- Claim C9: for every input string, the dispatcher and both format-specific
parsers are total: the checked variants, in which every Go string index and
slice is modelled as a fallible access, always succeed and return exactly the
record of the total embedding (all internal indexing is guarded, so no
out-of-range access is reachable and an empty-field record is the worst
case). -/
theorem license_parsers_total (y : Nat) (s : Str) :
    parseBCLicenseDataChecked y s = some (parseBCLicenseData y s) ∧
      parseAAMVALicenseDataChecked s = some (parseAAMVALicenseData s) ∧
      parseLicenseDataChecked y s = some (parseLicenseData y s) :=
  ⟨parseBCLicenseDataChecked_eq y s, parseAAMVALicenseDataChecked_eq s,
    parseLicenseDataChecked_eq y s⟩

/-- Leftmost match of the group of Go regex `;(\d+)=` (the license-number
regex of the variant parsers in `unnamed/part_006` and `unnamed/part_004`):
the maximal digit run after the first `;` that is non-empty and followed by
`=`. -/
def findSemiNumAny : Str → Option Str
  | [] => none
  | c :: rest =>
    if c = ';' then
      let ds := rest.takeWhile Char.isDigit
      if 1 ≤ ds.length ∧ (rest.drop ds.length).head? = some '=' then some ds
      else findSemiNumAny rest
    else findSemiNumAny rest

/-- License-number section of `parseBCLicenseData` in `unnamed/part_006`
(lines 163-178), applied to the cleaned payload: regex `;(\d+)=`, keeping the
last 8 digits when the run is longer than 8, else the whole run; empty when
there is no match. -/
def bcLicenseNumber6 (raw : Str) : Str :=
  match findSemiNumAny raw with
  | some fullNumber =>
    if 8 < fullNumber.length then fullNumber.drop (fullNumber.length - 8)
    else fullNumber
  | none => []

/-- License-number section of `parseCanadianLicense` in `unnamed/part_004`
(lines 279-292), applied to the cleaned payload: regex `;(\d+)=`, keeping the
last 7 digits when the run is longer than 7, else the whole run; empty when
there is no match. -/
def bcLicenseNumber4 (raw : Str) : Str :=
  match findSemiNumAny raw with
  | some fullNumber =>
    if 7 < fullNumber.length then fullNumber.drop (fullNumber.length - 7)
    else fullNumber
  | none => []

/-- Counterexample to claim C1 as stated: on a payload whose semicolon run
has exactly the claim's 13-16-digit shape, the cited `part_006` variant keeps
the last 8 digits of the run, not the last 7; and the cited `part_004`
variant extracts from a 5-digit run that the claim's 13-16-digit regex does
not match at all. -/
theorem bc_license_number_variant_counterexample :
    findSemiNum (cleanBCRaw (toStr ";1234567890123=")) = some (toStr "1234567890123") ∧
      bcLicenseNumber6 (cleanBCRaw (toStr ";1234567890123=")) = toStr "67890123" ∧
      toStr "67890123" ≠ toStr "7890123" ∧
      findSemiNum (cleanBCRaw (toStr ";12345=")) = none ∧
      bcLicenseNumber4 (cleanBCRaw (toStr ";12345=")) = toStr "12345" := by
  decide

/-- Claim C1 as amended: in `main.go` the provincial parser matches a
semicolon-prefixed run of 13 to 16 digits terminated by `=` and keeps exactly
its last 7 digits; the `part_006` variant matches any semicolon-prefixed
digit run terminated by `=` and keeps the last 8 digits (an 8-character
license number) whenever the run is longer than 8; the `part_004` variant
likewise matches any digit run and keeps the last 7 digits whenever the run
is longer than 7. -/
theorem bc_license_number_by_variant (y : Nat) (s raw6 : Str) :
    (∀ full, findSemiNum (cleanBCRaw s) = some full →
      13 ≤ full.length ∧ full.length ≤ 16 ∧ full.all Char.isDigit = true ∧
        (parseBCLicenseData y s).licenseNumber = full.drop (full.length - 7)) ∧
    (∀ fn, findSemiNumAny raw6 = some fn → 8 < fn.length →
      bcLicenseNumber6 raw6 = fn.drop (fn.length - 8) ∧
        (bcLicenseNumber6 raw6).length = 8) ∧
    (∀ fn, findSemiNumAny raw6 = some fn → 7 < fn.length →
      bcLicenseNumber4 raw6 = fn.drop (fn.length - 7) ∧
        (bcLicenseNumber4 raw6).length = 7) := by
  refine ⟨?_, ?_, ?_⟩
  · intro full h
    exact bc_license_number_last_seven y s full h
  · intro fn h hlen
    have he : bcLicenseNumber6 raw6 = fn.drop (fn.length - 8) := by
      simp [bcLicenseNumber6, h, hlen]
    refine ⟨he, ?_⟩
    rw [he, List.length_drop]
    omega
  · intro fn h hlen
    have he : bcLicenseNumber4 raw6 = fn.drop (fn.length - 7) := by
      simp [bcLicenseNumber4, h, hlen]
    refine ⟨he, ?_⟩
    rw [he, List.length_drop]
    omega

/-- Witness for the amended C1: the same 13-digit run yields the last 7
digits in `main.go`, the last 8 in the `part_006` variant, and the last 7 in
the `part_004` variant. -/
theorem bc_license_number_by_variant_witness :
    (parseBCLicenseData 25 (toStr ";1234567890123=")).licenseNumber = toStr "7890123" ∧
      bcLicenseNumber6 (toStr ";1234567890123=") = toStr "67890123" ∧
      bcLicenseNumber4 (toStr ";1234567890123=") = toStr "7890123" := by
  have h := bc_license_number_by_variant 25 (toStr ";1234567890123=") (toStr ";1234567890123=")
  refine ⟨?_, ?_, ?_⟩
  · exact ((h.1 (toStr "1234567890123") (by decide)).2.2.2).trans (by decide)
  · exact ((h.2.1 (toStr "1234567890123") (by decide) (by decide)).1).trans (by decide)
  · exact ((h.2.2 (toStr "1234567890123") (by decide) (by decide)).1).trans (by decide)
